import Mathlib

/-!
Verification of the raster-to-SVG vectorization core of the RP2_presentation
repository, embedded shallowly from
`presentation_assets/images/create_vector_koppen_svg.py`,
`presentation_assets/images/create_final_scientific_koppen.py` and
`presentation_assets/images/koppen_with_labels.py`.

Geographic and canvas coordinates are modelled as exact rationals (the Python
scripts use floats); machine-level rounding of the formatted output string
(`f"{x:.2f}"`) is presentation only and is not modelled.  Python's
exception handling (`try/except: return None` in `create_svg_path`) is
modelled by total functions into `Option`.  The two external geometry
collaborators, `rasterio.features.shapes` (boundary tracing) and
`shapely.ops.unary_union` (polygon merge), are not part of the repository;
the pipeline is therefore parameterised by abstract `trace` and `merge`
functions, and the merge contract itself is modelled separately from the
spec where a claim is about the merge.
-/

namespace VectorKoppen

/-- A polygon in the shapely sense: one exterior ring plus hole rings.
Rings are stored as the explicit coordinate list shapely exposes
(`polygon.exterior.coords`), i.e. closed lists whose last vertex repeats
the first. -/
structure Polygon where
  exterior : List (ℚ × ℚ)
  holes : List (List (ℚ × ℚ))
deriving DecidableEq

/-- One SVG path command, the abstract form of the `"M x y"`, `"L x y"`
and `"Z"` fragments assembled by `create_svg_path`. -/
inductive PathCmd where
  | move (x y : ℚ)
  | line (x y : ℚ)
  | close
deriving DecidableEq

/-- One emitted drawable path: class code, fill color and path data, the
data attached by `dwg.add(dwg.path(d=svg_path, fill=koppen_colors[...]))`. -/
structure PathRecord where
  classCode : ℤ
  fill : String
  d : List PathCmd
deriving DecidableEq

/-- Shoelace cross-term sum over consecutive vertices of a closed ring. -/
def shoelaceSum : List (ℚ × ℚ) → ℚ
  | (x1, y1) :: (x2, y2) :: rest => (x1 * y2 - x2 * y1) + shoelaceSum ((x2, y2) :: rest)
  | _ => 0

/-- Unsigned area of one closed ring (shapely ring area). -/
def ringArea (r : List (ℚ × ℚ)) : ℚ := |shoelaceSum r| / 2

/-- Shapely `polygon.area`: exterior ring area minus the hole ring areas. -/
def polyArea (p : Polygon) : ℚ :=
  ringArea p.exterior - (p.holes.map ringArea).sum

/-- Embeds `coords_to_svg` of `create_vector_koppen_svg.py` (lines 52-56);
the identical function also appears in `create_final_scientific_koppen.py`
(lines 109-113). -/
def coords_to_svg (lon lat west east north south svg_width svg_height : ℚ) : ℚ × ℚ :=
  (((lon - west) / (east - west)) * svg_width,
   ((north - lat) / (north - south)) * svg_height)

/-- Modelled from the spec: the inverse of the linear `DrawTransform`
(the spec's round-trip property presumes it; no inverse exists in the
source).  Sends a canvas point back to geographic coordinates. -/
def svg_to_coords (x y west east north south svg_width svg_height : ℚ) : ℚ × ℚ :=
  (west + x / svg_width * (east - west),
   north - y / svg_height * (north - south))

/-- Embeds `create_svg_path` of `create_vector_koppen_svg.py` (lines
187-212); the same logic (with coarser output rounding) appears in
`create_final_scientific_koppen.py` (lines 115-137).  Only the exterior
ring is walked (`polygon.exterior.coords`); hole rings are never read.
The `try/except: return None` wrapper is modelled by totality into
`Option`. -/
def create_svg_path (p : Polygon) (west east north south svg_width svg_height : ℚ) :
    Option (List PathCmd) :=
  if p.exterior = [] ∨ polyArea p < 1 / 1000 then none
  else
    match p.exterior with
    | [] => none
    | c :: rest =>
      let m := coords_to_svg c.1 c.2 west east north south svg_width svg_height
      some (PathCmd.move m.1 m.2 ::
        (rest.map (fun v =>
          let q := coords_to_svg v.1 v.2 west east north south svg_width svg_height
          PathCmd.line q.1 q.2) ++ [PathCmd.close]))

/-- C1: the coordinate projector returns exactly
`((lon - west) / (east - west) * W, (north - lat) / (north - south) * H)`,
and in particular the northwest corner `(west, north)` maps to canvas
`(0, 0)` and the southwest corner `(west, south)` maps to `(0, H)`. -/
theorem coords_to_svg_formula (lon lat west east north south W H : ℚ)
    (hwe : west < east) (hsn : south < north) (hW : 0 < W) (hH : 0 < H) :
    coords_to_svg lon lat west east north south W H =
      ((lon - west) / (east - west) * W, (north - lat) / (north - south) * H) ∧
    coords_to_svg west north west east north south W H = (0, 0) ∧
    coords_to_svg west south west east north south W H = (0, H) := by
  have h1 : east - west ≠ 0 := sub_ne_zero.mpr hwe.ne'
  have h2 : north - south ≠ 0 := sub_ne_zero.mpr hsn.ne'
  refine ⟨rfl, ?_, ?_⟩ <;> unfold coords_to_svg <;>
    simp only [Prod.mk.injEq] <;> constructor <;> field_simp

/-- Witness for C1 at the spec's own example: bounds `(0,0,10,10)`,
canvas `100×100`, northwest corner `(0,10)` projecting to `(0,0)` and
southwest corner `(0,0)` projecting to `(0,100)`. -/
theorem coords_to_svg_formula_witness :
    coords_to_svg 0 10 0 10 10 0 100 100 = (0, 0) ∧
    coords_to_svg 0 0 0 10 10 0 100 100 = (0, 100) := by
  have h := coords_to_svg_formula 3 4 0 10 10 0 100 100
    (by norm_num) (by norm_num) (by norm_num) (by norm_num)
  exact ⟨h.2.1, h.2.2⟩

/-- C2: for a point inside the window, projecting to canvas coordinates by
`coords_to_svg` and applying the inverse linear transform reconstructs the
original `(lon, lat)` exactly over rational arithmetic. -/
theorem projection_round_trip (lon lat west east north south W H : ℚ)
    (hwe : west < east) (hsn : south < north) (hW : 0 < W) (hH : 0 < H)
    (hlon1 : west ≤ lon) (hlon2 : lon ≤ east)
    (hlat1 : south ≤ lat) (hlat2 : lat ≤ north) :
    svg_to_coords (coords_to_svg lon lat west east north south W H).1
      (coords_to_svg lon lat west east north south W H).2
      west east north south W H = (lon, lat) := by
  have h1 : east - west ≠ 0 := sub_ne_zero.mpr hwe.ne'
  have h2 : north - south ≠ 0 := sub_ne_zero.mpr hsn.ne'
  have h3 : W ≠ 0 := hW.ne'
  have h4 : H ≠ 0 := hH.ne'
  unfold coords_to_svg svg_to_coords
  simp only [Prod.mk.injEq]
  constructor <;> field_simp <;> ring

/-- Witness for C2: the round trip at `(lon, lat) = (18, -20)` inside the
southern-Africa window `(10, -35, 40, -5)` on a `1200×900` canvas. -/
theorem projection_round_trip_witness :
    svg_to_coords (coords_to_svg 18 (-20) 10 40 (-5) (-35) 1200 900).1
      (coords_to_svg 18 (-20) 10 40 (-5) (-35) 1200 900).2
      10 40 (-5) (-35) 1200 900 = (18, -20) :=
  projection_round_trip 18 (-20) 10 40 (-5) (-35) 1200 900
    (by norm_num) (by norm_num) (by norm_num) (by norm_num)
    (by norm_num) (by norm_num) (by norm_num) (by norm_num)

/-- Embeds the `koppen_colors` table of `create_vector_koppen_svg.py`
(lines 19-50). -/
def koppen_colors : List (ℤ × String) :=
  [(1, "#0000FF"), (2, "#0078FF"), (3, "#46AAFA"), (4, "#FF0000"),
   (5, "#FF9696"), (6, "#F5A500"), (7, "#FFDC64"), (8, "#FFFF00"),
   (9, "#C8C800"), (10, "#969600"), (11, "#96FF96"), (12, "#64C864"),
   (13, "#329632"), (14, "#C8FF50"), (15, "#64FF50"), (16, "#32C800"),
   (17, "#FF00FF"), (18, "#C800C8"), (19, "#963296"), (20, "#966496"),
   (21, "#AABFFF"), (22, "#5A78DC"), (23, "#4B50B4"), (24, "#320087"),
   (25, "#00FFFF"), (26, "#37C8FF"), (27, "#007D7D"), (28, "#00465F"),
   (29, "#B2B2B2"), (30, "#666666")]

/-- Embeds the `koppen_colors` table of `create_final_scientific_koppen.py`
(lines 19-59); it differs from the other script only in the color of
code 1 (`#0000FE`). -/
def koppen_colors_final : List (ℤ × String) :=
  [(1, "#0000FE"), (2, "#0078FF"), (3, "#46AAFA"), (4, "#FF0000"),
   (5, "#FF9696"), (6, "#F5A500"), (7, "#FFDC64"), (8, "#FFFF00"),
   (9, "#C8C800"), (10, "#969600"), (11, "#96FF96"), (12, "#64C864"),
   (13, "#329632"), (14, "#C8FF50"), (15, "#64FF50"), (16, "#32C800"),
   (17, "#FF00FF"), (18, "#C800C8"), (19, "#963296"), (20, "#966496"),
   (21, "#AABFFF"), (22, "#5A78DC"), (23, "#4B50B4"), (24, "#320087"),
   (25, "#00FFFF"), (26, "#37C8FF"), (27, "#007D7D"), (28, "#00465F"),
   (29, "#B2B2B2"), (30, "#666666")]

/-- Dictionary lookup `table[v]` / `v in table` on an association list,
modelling the Python dict membership test and subscript. -/
def lookupColor : List (ℤ × String) → ℤ → Option String
  | [], _ => none
  | e :: rest, v => if e.1 = v then some e.2 else lookupColor rest v

/-- Insert an integer into an ascending duplicate-free list, keeping it
ascending and duplicate-free. -/
def insertSortedDedup (x : ℤ) : List ℤ → List ℤ
  | [] => [x]
  | y :: ys =>
    if x < y then x :: y :: ys
    else if x = y then y :: ys
    else y :: insertSortedDedup x ys

/-- Ascending duplicate-free list of the values of `l`, modelling
`np.unique` (which returns sorted unique values). -/
def sortedUnique (l : List ℤ) : List ℤ := l.foldr insertSortedDedup []

/-- The strictly positive values of a cell list. -/
def positivesOf : List ℤ → List ℤ
  | [] => []
  | v :: vs => if 0 < v then v :: positivesOf vs else positivesOf vs

/-- The strictly positive cell values of the grid, modelling the NumPy
selection `data[data > 0]`. -/
def positiveValues (data : List (List ℤ)) : List ℤ :=
  positivesOf data.flatten

/-- Boolean class mask `(data == climate_value)`, identical dimensions. -/
def buildMask (data : List (List ℤ)) (v : ℤ) : List (List Bool) :=
  data.map (fun row => row.map (fun c => c == v))

/-- The small-feature filter of the vectorization loop: keep a traced
fragment only when its area is strictly above the threshold
(`if poly.area > 0.01` resp. `> 0.005` in the two scripts). -/
def filterFragments (t : ℚ) : List Polygon → List Polygon
  | [] => []
  | p :: ps =>
    if t < polyArea p then p :: filterFragments t ps else filterFragments t ps

/-- The per-class body of the vectorization loop (lines 85-122 of
`create_vector_koppen_svg.py`, lines 212-245 of
`create_final_scientific_koppen.py`): build the class mask, trace it with
the external `rasterio.features.shapes` (abstract `trace`), keep the
fragments whose area is strictly above the threshold, and if any remain,
merge them with the external `shapely.ops.unary_union` (abstract `merge`,
returning the component polygons) and serialize each component, tagging it
with the class code and its fill color. -/
def zoneRecords (trace : List (List Bool) → List Polygon)
    (merge : List Polygon → List Polygon) (threshold : ℚ)
    (v : ℤ) (color : String) (data : List (List ℤ))
    (west east north south svg_width svg_height : ℚ) : List PathRecord :=
  let mask := buildMask data v
  let kept := filterFragments threshold (trace mask)
  if kept = [] then []
  else
    (merge kept).filterMap (fun poly =>
      (create_svg_path poly west east north south svg_width svg_height).map
        (fun d => { classCode := v, fill := color, d := d }))

/-- The full climate-zone loop
(`for climate_value in sorted(np.unique(data[data > 0])): if climate_value
in koppen_colors: ...`): iterate the sorted unique positive cell values,
skip values absent from the color table, and emit each zone's records. -/
def processClimateZones (trace : List (List Bool) → List Polygon)
    (merge : List Polygon → List Polygon)
    (table : List (ℤ × String)) (threshold : ℚ) (data : List (List ℤ))
    (west east north south svg_width svg_height : ℚ) : List PathRecord :=
  (sortedUnique (positiveValues data)).flatMap (fun v =>
    match lookupColor table v with
    | some color =>
      zoneRecords trace merge threshold v color data west east north south
        svg_width svg_height
    | none => [])

/-- The vector-path portion of `create_vectorized_svg`
(`create_vector_koppen_svg.py`, lines 83-122): threshold `0.01`, table
`koppen_colors`. -/
def createVectorizedSvgRecords (trace : List (List Bool) → List Polygon)
    (merge : List Polygon → List Polygon) (data : List (List ℤ))
    (west east north south svg_width svg_height : ℚ) : List PathRecord :=
  processClimateZones trace merge koppen_colors (1 / 100) data
    west east north south svg_width svg_height

/-- The per-panel vector-path portion of
`create_optimized_scientific_layout` (`create_final_scientific_koppen.py`,
lines 210-245): threshold `0.005`, table `koppen_colors_final`. -/
def scientificZoneRecords (trace : List (List Bool) → List Polygon)
    (merge : List Polygon → List Polygon) (data : List (List ℤ))
    (west east north south svg_width svg_height : ℚ) : List PathRecord :=
  processClimateZones trace merge koppen_colors_final (1 / 200) data
    west east north south svg_width svg_height

/-- Embeds the `KOPPEN_MAPPING` label table of `koppen_with_labels.py`
(lines 17-48). -/
def KOPPEN_MAPPING : List (ℤ × String) :=
  [(1, "Af - Tropical rainforest"), (2, "Am - Tropical monsoon"),
   (3, "Aw - Tropical savanna"), (4, "BWh - Hot desert"),
   (5, "BWk - Cold desert"), (6, "BSh - Hot semi-arid"),
   (7, "BSk - Cold semi-arid"), (8, "Csa - Mediterranean hot summer"),
   (9, "Csb - Mediterranean warm summer"), (10, "Csc - Mediterranean cool summer"),
   (11, "Cwa - Humid subtropical"), (12, "Cwb - Subtropical highland"),
   (13, "Cwc - Cold subtropical highland"), (14, "Cfa - Humid subtropical"),
   (15, "Cfb - Oceanic"), (16, "Cfc - Subpolar oceanic"),
   (17, "Dsa - Hot summer continental"), (18, "Dsb - Warm summer continental"),
   (19, "Dsc - Cool summer continental"), (20, "Dsd - Extremely cold continental"),
   (21, "Dwa - Hot summer humid continental"), (22, "Dwb - Warm summer humid continental"),
   (23, "Dwc - Cool summer humid continental"), (24, "Dwd - Extremely cold humid continental"),
   (25, "Dfa - Hot summer humid continental"), (26, "Dfb - Warm summer humid continental"),
   (27, "Dfc - Subarctic"), (28, "Dfd - Extremely cold subarctic"),
   (29, "ET - Tundra"), (30, "EF - Ice cap")]

/-- Label lookup on the `KOPPEN_MAPPING` table. -/
def lookupLabel (c : ℤ) : Option String := lookupColor KOPPEN_MAPPING c

/-- Embeds `KOPPEN_MAPPING.get(code, f"Unknown (GRIDCODE: ...)")` of
`koppen_with_labels.py` (line 119): label lookup with a default-string
fallback. -/
def koppen_label (c : ℤ) : String :=
  (lookupLabel c).getD ("Unknown (GRIDCODE: " ++ toString c ++ ")")

/-- One item of the static legend table: abbreviation, description, class
code. -/
structure LegendItem where
  abbr : String
  desc : String
  code : ℤ
deriving DecidableEq

/-- One group of the static legend table. -/
structure LegendGroup where
  title : String
  headerColor : String
  items : List LegendItem

/-- Embeds the `legend_data` table of `create_final_scientific_koppen.py`
(lines 62-107). -/
def legend_data : List LegendGroup :=
  [⟨"A - Tropical", "#0078FF",
    [⟨"Af", "Tropical rainforest", 1⟩, ⟨"Am", "Tropical monsoon", 2⟩,
     ⟨"Aw", "Tropical savannah", 3⟩]⟩,
   ⟨"B - Arid", "#FF6B00",
    [⟨"BWh", "Hot desert", 4⟩, ⟨"BWk", "Cold desert", 5⟩,
     ⟨"BSh", "Hot semi-arid", 6⟩, ⟨"BSk", "Cold semi-arid", 7⟩]⟩,
   ⟨"C - Temperate", "#32CD32",
    [⟨"Csa", "Mediterranean hot summer", 8⟩, ⟨"Csb", "Mediterranean warm summer", 9⟩,
     ⟨"Cwa", "Humid subtropical", 11⟩, ⟨"Cwb", "Subtropical highland", 12⟩,
     ⟨"Cfa", "Humid subtropical", 14⟩, ⟨"Cfb", "Oceanic", 15⟩]⟩,
   ⟨"D - Cold", "#4682B4",
    [⟨"Dwa", "Cold dry winter hot", 21⟩, ⟨"Dwb", "Cold dry winter warm", 22⟩,
     ⟨"Dfa", "Cold humid hot summer", 25⟩, ⟨"Dfb", "Cold humid warm summer", 26⟩]⟩,
   ⟨"E - Polar", "#808080",
    [⟨"ET", "Tundra", 29⟩, ⟨"EF", "Ice cap", 30⟩]⟩]

/-- One emitted legend row: swatch color, abbreviation, description. -/
structure LegendEntry where
  abbr : String
  desc : String
  code : ℤ
  swatch : String
deriving DecidableEq

/-- Embeds the legend emission loop of `create_optimized_scientific_layout`
(`create_final_scientific_koppen.py`, lines 337-383): iterate the groups in
table order, iterate each group's items in order, and emit a row (swatch
from the color table, abbreviation, description) for every item whose code
is in the color table. -/
def legendEntries : List LegendEntry :=
  legend_data.flatMap (fun g =>
    g.items.filterMap (fun it =>
      (lookupColor koppen_colors_final it.code).map
        (fun color => ⟨it.abbr, it.desc, it.code, color⟩)))

/-- The class codes of the emitted legend rows, in emission order. -/
def legendCodes : List ℤ := legendEntries.map (fun e => e.code)

/-- Cell access `grid[i][j]` on a 2D list, `none` when out of range. -/
def cellAt {α : Type} (g : List (List α)) (i j : ℕ) : Option α :=
  (g[i]?).bind (fun r => r[j]?)

/-- Modelled from the spec: the Polygon Merger (delegated in the source to
`shapely.ops.unary_union`, which is external to the repository).  Per the
spec's contract the merged output is "a set of polygons whose union exactly
equals the union of inputs", deterministically in the input set; a merged
result is therefore represented canonically by its point set (two polygon
sets equal up to ring order have the same point set), and a region by the
set of raster cells it covers. -/
def mergedRegion (regions : List (Finset (ℤ × ℤ))) : Finset (ℤ × ℤ) :=
  regions.foldr (fun a b => a ∪ b) ∅

/-- Inserting into an ascending duplicate-free list only adds the inserted
element. -/
theorem mem_insertSortedDedup {x y : ℤ} {l : List ℤ}
    (h : x ∈ insertSortedDedup y l) : x = y ∨ x ∈ l := by
  induction l with
  | nil => simpa [insertSortedDedup] using h
  | cons z zs ih =>
    unfold insertSortedDedup at h
    by_cases h1 : y < z
    · simp only [if_pos h1, List.mem_cons] at h
      rcases h with h | h | h
      · exact Or.inl h
      · exact Or.inr (by simp [h])
      · exact Or.inr (by simp [h])
    · simp only [if_neg h1] at h
      by_cases h2 : y = z
      · simp only [if_pos h2] at h
        exact Or.inr h
      · simp only [if_neg h2, List.mem_cons] at h
        rcases h with h | h
        · exact Or.inr (by simp [h])
        · rcases ih h with h' | h'
          · exact Or.inl h'
          · exact Or.inr (List.mem_cons_of_mem z h')

/-- Every member of the sorted-unique list is a member of the input. -/
theorem mem_sortedUnique {x : ℤ} {l : List ℤ} (h : x ∈ sortedUnique l) :
    x ∈ l := by
  have key : ∀ (t : List ℤ) (acc : List ℤ),
      x ∈ t.foldr insertSortedDedup acc → x ∈ t ∨ x ∈ acc := by
    intro t
    induction t with
    | nil => intro acc h'; exact Or.inr h'
    | cons y ys ih =>
      intro acc h'
      rcases mem_insertSortedDedup h' with h'' | h''
      · exact Or.inl (h'' ▸ List.mem_cons_self y ys)
      · rcases ih acc h'' with h3 | h3
        · exact Or.inl (List.mem_cons_of_mem y h3)
        · exact Or.inr h3
  rcases key l [] h with h' | h'
  · exact h'
  · simp at h'

/-- Every member of `positivesOf l` is strictly positive. -/
theorem mem_positivesOf {x : ℤ} {l : List ℤ} (h : x ∈ positivesOf l) :
    0 < x := by
  induction l with
  | nil => simpa [positivesOf] using h
  | cons y ys ih =>
    unfold positivesOf at h
    by_cases hy : 0 < y
    · simp only [if_pos hy, List.mem_cons] at h
      rcases h with h | h
      · exact h ▸ hy
      · exact ih h
    · simp only [if_neg hy] at h
      exact ih h

/-- When every fragment's area is at or below the threshold, the
small-feature filter removes everything. -/
theorem filterFragments_eq_nil (t : ℚ) (ps : List Polygon)
    (h : ∀ p ∈ ps, polyArea p ≤ t) : filterFragments t ps = [] := by
  induction ps with
  | nil => rfl
  | cons p ps ih =>
    have hp : ¬ t < polyArea p := not_lt.mpr (h p (List.mem_cons_self p ps))
    simp only [filterFragments, if_neg hp]
    exact ih (fun q hq => h q (List.mem_cons_of_mem p hq))

/-- Every record a zone emits carries that zone's class code and fill. -/
theorem mem_zoneRecords {trace : List (List Bool) → List Polygon}
    {merge : List Polygon → List Polygon} {threshold : ℚ} {v : ℤ}
    {color : String} {data : List (List ℤ)} {west east north south W H : ℚ}
    {rec : PathRecord}
    (h : rec ∈ zoneRecords trace merge threshold v color data west east north south W H) :
    rec.classCode = v ∧ rec.fill = color := by
  simp only [zoneRecords] at h
  split at h
  · simp at h
  · rcases List.mem_filterMap.mp h with ⟨poly, _, hf⟩
    rcases Option.map_eq_some'.mp hf with ⟨d, _, hrec⟩
    rw [← hrec]
    exact ⟨rfl, rfl⟩

/-- Every record the climate-zone loop emits was stamped with a code from
the sorted unique positive values whose style lookup succeeded. -/
theorem mem_processClimateZones {trace : List (List Bool) → List Polygon}
    {merge : List Polygon → List Polygon} {table : List (ℤ × String)}
    {threshold : ℚ} {data : List (List ℤ)} {west east north south W H : ℚ}
    {rec : PathRecord}
    (h : rec ∈ processClimateZones trace merge table threshold data west east north south W H) :
    ∃ v, v ∈ sortedUnique (positiveValues data) ∧
      lookupColor table v = some rec.fill ∧ rec.classCode = v := by
  unfold processClimateZones at h
  rcases List.mem_flatMap.mp h with ⟨v, hv, hrec⟩
  split at hrec
  · rename_i color heq
    obtain ⟨hcc, hfill⟩ := mem_zoneRecords hrec
    exact ⟨v, hv, by rw [heq, hfill], hcc⟩
  · simp at hrec

/-- A unit square over land in the southern-Africa window, area 1. -/
def sqBig : Polygon := ⟨[(20, -20), (21, -20), (21, -19), (20, -19), (20, -20)], []⟩

/-- A boundary tracer that reports the unit square for any mask. -/
def traceSq : List (List Bool) → List Polygon := fun _ => [sqBig]

/-- The path commands the serializer emits for `sqBig` on the window
`(10, -35, 40, -5)` and a `1200×900` canvas. -/
def sqCmds : List PathCmd :=
  [PathCmd.move 400 450, PathCmd.line 440 450, PathCmd.line 440 420,
   PathCmd.line 400 420, PathCmd.line 400 450, PathCmd.close]

/-- The record the pipeline emits for class 7 from `traceSq`. -/
def rec3 : PathRecord := ⟨7, "#FFDC64", sqCmds⟩

/-- C3: no-data cells are never vectorized.  Every record the pipeline
emits carries a strictly positive class code (never the sentinel 0), for
every tracer and every merger; and for every class value the loop can
iterate, the class mask is false at every cell holding the sentinel 0, so
no traced polygon can cover a no-data cell. -/
theorem no_data_never_vectorized (trace : List (List Bool) → List Polygon)
    (merge : List Polygon → List Polygon) (data : List (List ℤ))
    (west east north south W H : ℚ) :
    (∀ rec ∈ createVectorizedSvgRecords trace merge data west east north south W H,
       0 < rec.classCode) ∧
    (∀ v : ℤ, 0 < v → ∀ i j : ℕ, cellAt data i j = some 0 →
       cellAt (buildMask data v) i j ≠ some true) := by
  constructor
  · intro rec hrec
    obtain ⟨v, hv, _, hcc⟩ := mem_processClimateZones hrec
    rw [hcc]
    have : v ∈ positiveValues data := mem_sortedUnique hv
    exact mem_positivesOf this
  · intro v hv i j h0
    unfold cellAt at h0 ⊢
    unfold buildMask
    cases hdi : data[i]? with
    | none => rw [hdi] at h0; simp at h0
    | some row =>
      rw [hdi] at h0
      simp only [Option.some_bind] at h0
      simp only [List.getElem?_map, hdi, Option.map_some', Option.some_bind,
        List.getElem?_map, h0]
      intro hcontra
      simp only [Option.some.injEq, beq_iff_eq] at hcontra
      exact hv.ne (by omega)

/-- Witness for C3: grid `[[0,7],[7,0]]`, tracer `traceSq`, identity
merger; the emitted record has positive class code 7 and the class-7 mask
is false at the no-data cell `(0,0)`. -/
theorem no_data_never_vectorized_witness :
    0 < rec3.classCode ∧
    cellAt (buildMask [[0, 7], [7, 0]] 7) 0 0 ≠ some true := by
  have h := no_data_never_vectorized traceSq id [[0, 7], [7, 0]] 10 40 (-5) (-35) 1200 900
  refine ⟨h.1 rec3 ?_, h.2 7 (by norm_num) 0 0 (by rfl)⟩
  have hout : createVectorizedSvgRecords traceSq id [[0, 7], [7, 0]] 10 40 (-5) (-35) 1200 900
      = [rec3] := by
    norm_num [createVectorizedSvgRecords, processClimateZones, zoneRecords,
      sortedUnique, positiveValues, positivesOf, insertSortedDedup, lookupColor,
      koppen_colors, buildMask, filterFragments, traceSq, sqBig, polyArea,
      ringArea, shoelaceSum, create_svg_path, coords_to_svg, abs_of_pos,
      abs_of_neg, List.filterMap_cons, List.filterMap_nil]
    simp [rec3, sqCmds]
  rw [hout]
  exact List.mem_singleton.mpr rfl

/-- A square of side `1/10`, area exactly `1/100` — exactly the
small-feature threshold of `create_vectorized_svg`. -/
def sqT : Polygon := ⟨[(0, 0), (1/10, 0), (1/10, 1/10), (0, 1/10), (0, 0)], []⟩

/-- Counterexample to C4 as stated: a polygon whose area is exactly the
threshold `0.01` is dropped by the filter (`poly.area > 0.01` is strict),
not retained. -/
theorem filter_at_threshold_dropped :
    polyArea sqT = 1 / 100 ∧ filterFragments (1 / 100) [sqT] = [] := by
  constructor
  · norm_num [polyArea, ringArea, shoelaceSum, sqT, abs_of_pos, abs_of_neg]
  · norm_num [filterFragments, polyArea, ringArea, shoelaceSum, sqT,
      abs_of_pos, abs_of_neg]

/-- C4 amended: the small-feature filter keeps a polygon if and only if
its area is strictly above the threshold; area exactly equal to the
threshold is dropped. -/
theorem small_feature_filter_strict (t : ℚ) (polys : List Polygon) (p : Polygon) :
    p ∈ filterFragments t polys ↔ p ∈ polys ∧ t < polyArea p := by
  induction polys with
  | nil => simp [filterFragments]
  | cons q qs ih =>
    unfold filterFragments
    by_cases hq : t < polyArea q
    · simp only [if_pos hq, List.mem_cons, ih]
      constructor
      · rintro (h | ⟨h1, h2⟩)
        · exact ⟨Or.inl h, h ▸ hq⟩
        · exact ⟨Or.inr h1, h2⟩
      · rintro ⟨h1 | h1, h2⟩
        · exact Or.inl h1
        · exact Or.inr ⟨h1, h2⟩
    · simp only [if_neg hq, ih, List.mem_cons]
      constructor
      · rintro ⟨h1, h2⟩
        exact ⟨Or.inr h1, h2⟩
      · rintro ⟨h1 | h1, h2⟩
        · exact absurd (h1 ▸ h2) hq
        · exact ⟨h1, h2⟩

/-- First of two below-threshold rectangles (area `0.009`). -/
def r5a : Polygon := ⟨[(0, 0), (9/100, 0), (9/100, 1/10), (0, 1/10), (0, 0)], []⟩

/-- Second of two below-threshold rectangles (area `0.009`), adjacent to
the first. -/
def r5b : Polygon := ⟨[(0, 1/10), (9/100, 1/10), (9/100, 1/5), (0, 1/5), (0, 1/10)], []⟩

/-- The union of the two rectangles (area `0.018`, above the threshold). -/
def big5 : Polygon := ⟨[(0, 0), (9/100, 0), (9/100, 1/5), (0, 1/5), (0, 0)], []⟩

/-- A tracer reporting the two small adjacent rectangles. -/
def trace5 : List (List Bool) → List Polygon := fun _ => [r5a, r5b]

/-- A merger that would union the two rectangles into `big5`. -/
def merge5 : List Polygon → List Polygon := fun _ => [big5]

/-- Counterexample to C5 as stated: the area filter runs before the merge,
so two fragments of area `0.009` each — whose union `big5` has area
`0.018`, above the `0.01` threshold — are both discarded before the merger
ever runs, and the class emits nothing. -/
theorem filter_after_merge_refuted :
    polyArea r5a = 9 / 1000 ∧ polyArea r5b = 9 / 1000 ∧
    (1 : ℚ) / 100 < polyArea big5 ∧ merge5 [r5a, r5b] = [big5] ∧
    createVectorizedSvgRecords trace5 merge5 [[5]] 10 40 (-5) (-35) 1200 900 = [] := by
  refine ⟨?_, ?_, ?_, rfl, ?_⟩
  · norm_num [polyArea, ringArea, shoelaceSum, r5a, abs_of_pos, abs_of_neg]
  · norm_num [polyArea, ringArea, shoelaceSum, r5b, abs_of_pos, abs_of_neg]
  · norm_num [polyArea, ringArea, shoelaceSum, big5, abs_of_pos, abs_of_neg]
  · norm_num [createVectorizedSvgRecords, processClimateZones, zoneRecords,
      sortedUnique, positiveValues, positivesOf, insertSortedDedup, lookupColor,
      koppen_colors, buildMask, filterFragments, trace5, r5a, r5b, polyArea,
      ringArea, shoelaceSum, abs_of_pos, abs_of_neg]

/-- C5 amended: the small-feature filter is applied to the traced
fragments before the merge, not after it: whenever every traced fragment
of a class has area at or below the threshold, the class emits no records,
regardless of what the merger would have produced from them. -/
theorem small_fragments_filtered_before_merge
    (trace : List (List Bool) → List Polygon)
    (merge : List Polygon → List Polygon) (threshold : ℚ) (v : ℤ)
    (color : String) (data : List (List ℤ)) (west east north south W H : ℚ)
    (hsmall : ∀ p ∈ trace (buildMask data v), polyArea p ≤ threshold) :
    zoneRecords trace merge threshold v color data west east north south W H = [] := by
  have hkept : filterFragments threshold (trace (buildMask data v)) = [] :=
    filterFragments_eq_nil threshold _ hsmall
  simp [zoneRecords, hkept]

/-- Witness for the amended C5 at the concrete fragments `r5a`, `r5b`
(each of area `0.009 ≤ 0.01`) and the merger `merge5`. -/
theorem small_fragments_filtered_before_merge_witness :
    zoneRecords trace5 merge5 (1 / 100) 5 "#FF9696" [[5]] 10 40 (-5) (-35) 1200 900 = [] := by
  have h := small_fragments_filtered_before_merge trace5 merge5 (1 / 100) 5
    "#FF9696" [[5]] 10 40 (-5) (-35) 1200 900 ?_
  · exact h
  · intro p hp
    simp only [trace5, List.mem_cons, List.not_mem_nil, or_false] at hp
    rcases hp with hp | hp <;> subst hp <;>
      norm_num [polyArea, ringArea, shoelaceSum, r5a, r5b, abs_of_pos, abs_of_neg]

/-- A polygon with one hole: a 2×2 exterior square and a centered
half-unit hole (total area `15/4`). -/
def pHole : Polygon :=
  ⟨[(20, -20), (22, -20), (22, -18), (20, -18), (20, -20)],
   [[(41/2, -39/2), (21, -39/2), (21, -19), (41/2, -19), (41/2, -39/2)]]⟩

/-- Recognizes a move-to command. -/
def isMoveCmd : PathCmd → Bool
  | PathCmd.move _ _ => true
  | _ => false

/-- Recognizes a close-path command. -/
def isCloseCmd : PathCmd → Bool
  | PathCmd.close => true
  | _ => false

/-- Counterexample to C6 as stated: for a polygon with one hole ring the
serializer emits exactly one move-to and one close-path command — the
hole is never serialized as an additional sub-path (the code only walks
`polygon.exterior.coords`). -/
theorem holes_never_serialized :
    pHole.holes ≠ [] ∧
    (create_svg_path pHole 10 40 (-5) (-35) 1200 900).map
      (fun l => (l.countP isMoveCmd, l.countP isCloseCmd)) = some (1, 1) := by
  constructor
  · simp [pHole]
  · norm_num [create_svg_path, pHole, polyArea, ringArea, shoelaceSum,
      coords_to_svg, abs_of_pos, abs_of_neg]
    simp [isMoveCmd, isCloseCmd, List.countP_cons, List.countP_nil]

/-- C6 amended: for every serializable polygon the emitted command
sequence is one move-to for the first exterior vertex, one line-to for
each subsequent exterior vertex, then a single close-path — covering the
outer ring only; hole rings are not emitted. -/
theorem svg_path_outer_ring_only (p : Polygon) (west east north south W H : ℚ)
    (c : ℚ × ℚ) (rest : List (ℚ × ℚ))
    (hext : p.exterior = c :: rest) (harea : ¬ polyArea p < 1 / 1000) :
    create_svg_path p west east north south W H =
      some (PathCmd.move (coords_to_svg c.1 c.2 west east north south W H).1
              (coords_to_svg c.1 c.2 west east north south W H).2 ::
            (rest.map (fun vtx =>
              PathCmd.line (coords_to_svg vtx.1 vtx.2 west east north south W H).1
                (coords_to_svg vtx.1 vtx.2 west east north south W H).2) ++
             [PathCmd.close])) := by
  have hcond : ¬ (p.exterior = [] ∨ polyArea p < 1 / 1000) := by
    rintro (h | h)
    · rw [hext] at h
      exact List.cons_ne_nil c rest h
    · exact harea h
  unfold create_svg_path
  rw [if_neg hcond, hext]

/-- Witness for the amended C6: the serialized command list for the unit
square `sqBig` on the southern-Africa window. -/
theorem svg_path_outer_ring_only_witness :
    create_svg_path sqBig 10 40 (-5) (-35) 1200 900 = some sqCmds := by
  have h := svg_path_outer_ring_only sqBig 10 40 (-5) (-35) 1200 900 (20, -20)
    [(21, -20), (21, -19), (20, -19), (20, -20)] rfl
    (by norm_num [polyArea, ringArea, shoelaceSum, sqBig, abs_of_pos, abs_of_neg])
  rw [h]
  norm_num [coords_to_svg, sqCmds]

/-- Counterexample to C7 as stated: grid value 31 is positive and present,
the tracer reports a large polygon for it, but 31 has no entry in the
style table and the zone is skipped entirely — nothing is rendered with
any default style. -/
theorem unmapped_code_skipped :
    (0 : ℤ) < 31 ∧ lookupColor koppen_colors 31 = none ∧
    createVectorizedSvgRecords traceSq id [[31]] 10 40 (-5) (-35) 1200 900 = [] := by
  refine ⟨by norm_num, by norm_num [lookupColor, koppen_colors], ?_⟩
  norm_num [createVectorizedSvgRecords, processClimateZones, sortedUnique,
    positiveValues, positivesOf, insertSortedDedup, lookupColor, koppen_colors]

/-- The record the pipeline emits for class 3 from `traceSq`. -/
def rec7 : PathRecord := ⟨3, "#46AAFA", sqCmds⟩

/-- C7 amended: style lookup never fails for what is actually rendered —
every emitted record's class code has an entry in the color table, equal
to the record's fill (codes without an entry are skipped rather than
rendered with a default); and in the label script a code missing from
`KOPPEN_MAPPING` falls back to the default "Unknown (GRIDCODE: ...)"
label rather than failing. -/
theorem style_lookup_fallback (trace : List (List Bool) → List Polygon)
    (merge : List Polygon → List Polygon) (data : List (List ℤ))
    (west east north south W H : ℚ) :
    (∀ rec ∈ createVectorizedSvgRecords trace merge data west east north south W H,
       lookupColor koppen_colors rec.classCode = some rec.fill) ∧
    (∀ c : ℤ, lookupLabel c = none →
       koppen_label c = "Unknown (GRIDCODE: " ++ toString c ++ ")") := by
  constructor
  · intro rec hrec
    obtain ⟨v, _, hlk, hcc⟩ := mem_processClimateZones hrec
    rw [hcc]
    exact hlk
  · intro c hc
    simp [koppen_label, hc]

/-- Witness for the amended C7: the emitted class-3 record's fill is the
table entry for code 3, and code 31 gets the fallback label. -/
theorem style_lookup_fallback_witness :
    lookupColor koppen_colors (3 : ℤ) = some "#46AAFA" ∧
    koppen_label 31 = "Unknown (GRIDCODE: 31)" := by
  have h := style_lookup_fallback traceSq id [[3]] 10 40 (-5) (-35) 1200 900
  have hout : createVectorizedSvgRecords traceSq id [[3]] 10 40 (-5) (-35) 1200 900
      = [rec7] := by
    norm_num [createVectorizedSvgRecords, processClimateZones, zoneRecords,
      sortedUnique, positiveValues, positivesOf, insertSortedDedup, lookupColor,
      koppen_colors, buildMask, filterFragments, traceSq, sqBig, polyArea,
      ringArea, shoelaceSum, create_svg_path, coords_to_svg, abs_of_pos,
      abs_of_neg, List.filterMap_cons, List.filterMap_nil]
    simp [rec7, sqCmds]
  constructor
  · have hmem : rec7 ∈ createVectorizedSvgRecords traceSq id [[3]] 10 40 (-5) (-35) 1200 900 := by
      rw [hout]; exact List.mem_singleton.mpr rfl
    exact h.1 rec7 hmem
  · exact h.2 31 (by norm_num [lookupLabel, lookupColor, KOPPEN_MAPPING])

/-- Counterexample to C8 as stated: a render of a grid holding class 10
(`Csc`, present in the color table) emits a path record for code 10, but
the static legend table has no entry for code 10 at all. -/
theorem legend_missing_rendered_code :
    (scientificZoneRecords traceSq id [[10]] 10 40 (-5) (-35) 600 700).map
      (fun r => r.classCode) = [10] ∧ (10 : ℤ) ∉ legendCodes := by
  constructor
  · norm_num [scientificZoneRecords, processClimateZones, zoneRecords,
      sortedUnique, positiveValues, positivesOf, insertSortedDedup, lookupColor,
      koppen_colors_final, buildMask, filterFragments, traceSq, sqBig, polyArea,
      ringArea, shoelaceSum, create_svg_path, coords_to_svg, abs_of_pos,
      abs_of_neg, List.filterMap_cons, List.filterMap_nil]
    simp
  · norm_num [legendCodes, legendEntries, legend_data, lookupColor,
      koppen_colors_final, List.filterMap_cons, List.filterMap_nil]

/-- C8 amended: the legend is a fixed curated table — its emitted class
codes are exactly `[1..9, 11, 12, 14, 15, 21, 22, 25, 26, 29, 30]`, each
appearing exactly once and in strictly ascending order; a rendered class
code outside this set (such as 10, 13, 16-20, 23, 24, 27 or 28) gets no
legend entry. -/
theorem legend_fixed_ascending :
    legendCodes = [1, 2, 3, 4, 5, 6, 7, 8, 9, 11, 12, 14, 15, 21, 22, 25, 26, 29, 30] ∧
    legendCodes.Pairwise (· < ·) := by
  have h : legendCodes = [1, 2, 3, 4, 5, 6, 7, 8, 9, 11, 12, 14, 15, 21, 22, 25, 26, 29, 30] := by
    norm_num [legendCodes, legendEntries, legend_data, lookupColor,
      koppen_colors_final, List.filterMap_cons, List.filterMap_nil]
  refine ⟨h, ?_⟩
  rw [h]
  decide

/-- C9: the polygon merge is idempotent — merging a polygon set with
itself yields the same merged result. -/
theorem merge_idempotent (S : List (Finset (ℤ × ℤ))) :
    mergedRegion (S ++ S) = mergedRegion S := by
  have hfold : ∀ (T : List (Finset (ℤ × ℤ))) (acc : Finset (ℤ × ℤ)),
      T.foldr (fun a b => a ∪ b) acc = mergedRegion T ∪ acc := by
    intro T
    induction T with
    | nil => intro acc; simp [mergedRegion]
    | cons a T ih =>
      intro acc
      show a ∪ T.foldr (fun a b => a ∪ b) acc = (a ∪ mergedRegion T) ∪ acc
      rw [ih, Finset.union_assoc]
  calc mergedRegion (S ++ S)
      = S.foldr (fun a b => a ∪ b) (mergedRegion S) := by
        simp [mergedRegion, List.foldr_append]
    _ = mergedRegion S ∪ mergedRegion S := hfold S (mergedRegion S)
    _ = mergedRegion S := Finset.union_self _

/-- C10: the path serializer is total into `Option` and returns `none`
exactly when the polygon is empty or its area is below the hard-coded
cutoff `0.001` — a second area filter applied to the merged polygons, in
addition to the pre-merge small-feature filter.  (In the Python source
the `try/except` wrapper also maps any internal error to `None`;
totality of the embedding models the absence of exceptions.) -/
theorem svg_path_none_iff (p : Polygon) (west east north south W H : ℚ) :
    create_svg_path p west east north south W H = none ↔
      p.exterior = [] ∨ polyArea p < 1 / 1000 := by
  unfold create_svg_path
  by_cases hc : p.exterior = [] ∨ polyArea p < 1 / 1000
  · rw [if_pos hc]
    simpa using hc
  · have harea : ¬ polyArea p < 1 / 1000 := fun h => hc (Or.inr h)
    rw [if_neg hc]
    rcases hx : p.exterior with _ | ⟨c, rest⟩
    · exact absurd (Or.inl hx) hc
    · simp only [List.cons_ne_nil, false_or]
      constructor
      · intro hnone
        exact absurd hnone (by simp)
      · intro hlt
        exact absurd hlt harea

end VectorKoppen
